import Mathlib

/-!
Verification of the goexpress-redis session and cache subsystems.

The Go sources are shallowly embedded: every stateful operation is a pure
function that takes the backend state (an association list) and the current
time explicitly and returns the updated state.  Machine time is modelled as
`Int` (nanoseconds, as in Go's `time.Duration`/`UnixNano`); Go's
`a.After(b)` is `a > b`.  Serialization capabilities (JSON marshal,
base64 transport) are consumed from the surrounding pipeline per the spec's
external-interface contract, so they appear as explicit function
parameters of the store operations.
-/

namespace GoexpressRedis

/-- Association-list lookup used to model Go maps keyed by strings. -/
def lookupA {α : Type} : List (String × α) → String → Option α
  | [], _ => none
  | (k, v) :: rest, x => if k = x then some v else lookupA rest x

/-- Association-list removal of every binding of a key (models `delete(m, k)`). -/
def eraseA {α : Type} : List (String × α) → String → List (String × α)
  | [], _ => []
  | (k, v) :: rest, x => if k = x then eraseA rest x else (k, v) :: eraseA rest x

/-- Association-list upsert (models `m[k] = v`). -/
def insertA {α : Type} (l : List (String × α)) (k : String) (v : α) :
    List (String × α) :=
  (k, v) :: eraseA l k

theorem lookupA_insertA_self {α : Type} (l : List (String × α)) (k : String) (v : α) :
    lookupA (insertA l k v) k = some v := by
  simp [insertA, lookupA]

theorem eraseA_cons_self {α : Type} (k : String) (v : α) (tl : List (String × α)) :
    eraseA ((k, v) :: tl) k = eraseA tl k := by
  simp [eraseA]

theorem eraseA_cons_ne {α : Type} {hk k : String} (v : α) (tl : List (String × α))
    (h : hk ≠ k) : eraseA ((hk, v) :: tl) k = (hk, v) :: eraseA tl k := by
  simp [eraseA, h]

theorem lookupA_eraseA {α : Type} (l : List (String × α)) (k x : String) :
    lookupA (eraseA l k) x = if x = k then none else lookupA l x := by
  induction l with
  | nil => simp [eraseA, lookupA]
  | cons hd tl ih =>
    obtain ⟨hk, hv⟩ := hd
    by_cases h1 : hk = k
    · subst h1
      rw [eraseA_cons_self, ih]
      by_cases h2 : x = hk
      · simp [h2]
      · simp [lookupA, h2, Ne.symm h2]
    · rw [eraseA_cons_ne hv tl h1]
      by_cases h2 : hk = x
      · subst h2
        simp [lookupA, h1]
      · simp [lookupA, h2, ih]

theorem lookupA_insertA {α : Type} (l : List (String × α)) (k x : String) (v : α) :
    lookupA (insertA l k v) x = if x = k then some v else lookupA l x := by
  by_cases h : x = k
  · subst h; simp [lookupA_insertA_self]
  · simp [insertA, lookupA, Ne.symm h, h, lookupA_eraseA]

theorem eraseA_of_lookupA_none {α : Type} (l : List (String × α)) (k : String)
    (h : lookupA l k = none) : eraseA l k = l := by
  induction l with
  | nil => simp [eraseA]
  | cons hd tl ih =>
    obtain ⟨hk, hv⟩ := hd
    by_cases h1 : hk = k
    · subst h1; simp [lookupA] at h
    · simp [lookupA, h1] at h
      simp [eraseA, h1, ih h]

/-- Session values: the Go code stores `interface{}`; the spec's design note
models those as a tagged union of primitives, which is what we use. -/
inductive SVal : Type
  | vStr (s : String)
  | vInt (n : Int)
  | vBool (b : Bool)
deriving DecidableEq

/-- Session entity from `session/store.go` (fields `ID`, `Data`, `CreatedAt`,
`ExpiresAt`, `UpdatedAt`); timestamps are `Int` nanoseconds. -/
structure Session : Type where
  ID : String
  Data : List (String × SVal)
  CreatedAt : Int
  ExpiresAt : Int
  UpdatedAt : Int
deriving DecidableEq

/-- Embedding of `NewSession`; the cryptographically random identifier
produced by `generateSessionID()` is passed in as `id`, and the call time
`time.Now()` as `now`. -/
def NewSession (id : String) (now : Int) (maxAge : Int) : Session :=
  { ID := id
    Data := []
    CreatedAt := now
    ExpiresAt := now + maxAge
    UpdatedAt := now }

/-- Embedding of `Session.IsExpired`: `time.Now().After(s.ExpiresAt)`. -/
def Session.IsExpired (s : Session) (now : Int) : Bool :=
  now > s.ExpiresAt

/-- Embedding of `Session.Set`. -/
def Session.Set (s : Session) (key : String) (value : SVal) (now : Int) : Session :=
  { s with Data := insertA s.Data key value, UpdatedAt := now }

/-- Embedding of `Session.Get`: returns `(val, ok)` as an `Option`. -/
def Session.Get (s : Session) (key : String) : Option SVal :=
  lookupA s.Data key

/-- Embedding of `Session.Delete`. -/
def Session.Delete (s : Session) (key : String) (now : Int) : Session :=
  { s with Data := eraseA s.Data key, UpdatedAt := now }

/-- Error sentinels of the session package (`ErrSessionNotFound`,
`ErrSessionExpired`) plus a decode-failure case standing for the base64 or
JSON errors a backend can surface. -/
inductive SErr : Type
  | notFound
  | expired
  | decodeFail
deriving DecidableEq

/-- In-memory session table of `MemoryStore`. -/
abbrev MemState := List (String × Session)

/-- Embedding of `MemoryStore.Get`: looks the id up, reports `ErrSessionNotFound`
when absent and `ErrSessionExpired` when past expiry.  The Go method holds only
a read lock and performs no mutation, so the embedding returns no new state. -/
def MemoryStore.Get (st : MemState) (id : String) (now : Int) : Except SErr Session :=
  match lookupA st id with
  | none => .error .notFound
  | some session =>
    if session.IsExpired now then .error .expired
    else .ok session

/-- Embedding of `MemoryStore.Set`: unconditionally upserts. -/
def MemoryStore.Set (st : MemState) (session : Session) : MemState :=
  insertA st session.ID session

/-- Embedding of `MemoryStore.Delete`. -/
def MemoryStore.Delete (st : MemState) (id : String) : MemState :=
  eraseA st id

/-- Embedding of `MemoryStore.Touch`. -/
def MemoryStore.Touch (st : MemState) (id : String) (now : Int) :
    MemState × Option SErr :=
  match lookupA st id with
  | none => (st, some .notFound)
  | some session => (insertA st id { session with UpdatedAt := now }, none)

/-- Embedding of `MemoryStore.Cleanup`: removes every record past expiry. -/
def MemoryStore.Cleanup (st : MemState) (now : Int) : MemState :=
  st.filter (fun p => !(now > p.2.ExpiresAt))

/-- Embedding of `CookieStore.Get`.  The inbound `cookieValue` is base64-decoded
(`dec64`, the transport decoding capability) and then JSON-unmarshalled
(`unm`); an empty value is `ErrSessionNotFound`, a failing decode surfaces
the decode error, and an expired decoded session is `ErrSessionExpired`. -/
def CookieStore.Get {B : Type} (dec64 : String → Option B)
    (unm : B → Option Session) (cookieValue : String) (now : Int) :
    Except SErr Session :=
  if cookieValue = "" then .error .notFound
  else
    match dec64 cookieValue with
    | none => .error .decodeFail
    | some data =>
      match unm data with
      | none => .error .decodeFail
      | some session =>
        if session.IsExpired now then .error .expired
        else .ok session

/-- Embedding of `CookieStore.Set`: a server-side no-op that always succeeds. -/
def CookieStore.Set (_session : Session) : Option SErr :=
  none

/-- Embedding of `CookieStore.Encode`: JSON-marshal (`m`) then transport-encode
(`enc64`). -/
def CookieStore.Encode {B : Type} (m : Session → B) (enc64 : B → String)
    (session : Session) : String :=
  enc64 (m session)

/-- Redis session keyspace: marshalled session bytes plus the absolute expiry
deadline armed by the `SET ... TTL` call (Redis native per-key expiry). -/
abbrev RSessState (B : Type) := List (String × (B × Int))

/-- Embedding of `RedisStore.Get`: a missing or natively expired key is
`redis.Nil` hence `ErrSessionNotFound`; an unmarshalled session past its own
expiry is opportunistically deleted and reported as `ErrSessionExpired`.
Returns the possibly mutated keyspace. -/
def RedisStore.Get {B : Type} (pfx : String) (dec : B → Option Session)
    (st : RSessState B) (id : String) (now : Int) :
    Except SErr Session × RSessState B :=
  match lookupA st (pfx ++ id) with
  | none => (.error .notFound, st)
  | some (data, deadline) =>
    if now ≥ deadline then (.error .notFound, st)
    else
      match dec data with
      | none => (.error .decodeFail, st)
      | some session =>
        if session.IsExpired now then
          (.error .expired, eraseA st (pfx ++ id))
        else (.ok session, st)

/-- Embedding of `RedisStore.Set`: marshals, computes
`ttl := time.Until(session.ExpiresAt)`, fails with `ErrSessionExpired` when
`ttl ≤ 0`, and otherwise stores the bytes with the native deadline. -/
def RedisStore.Set {B : Type} (pfx : String) (enc : Session → B)
    (st : RSessState B) (session : Session) (now : Int) :
    RSessState B × Option SErr :=
  let data := enc session
  let ttl := session.ExpiresAt - now
  if ttl ≤ 0 then (st, some .expired)
  else (insertA st (pfx ++ session.ID) (data, now + ttl), none)

/-- Embedding of `RedisStore.Delete`. -/
def RedisStore.Delete {B : Type} (pfx : String) (st : RSessState B)
    (id : String) : RSessState B :=
  eraseA st (pfx ++ id)

/-- Values stored in the goexpress per-request context: the session middleware
stores a `*Session` under the configured context key and the session id string
under `"session_id"`. -/
inductive CtxVal : Type
  | vSess (s : Session)
  | vStr (v : String)
deriving DecidableEq

/-- Outgoing `Set-Cookie` record with the attributes the middleware sets. -/
structure SetCookieRec : Type where
  name : String
  value : String
  path : String
  domain : String
  maxAge : Int
  secure : Bool
  httpOnly : Bool
  sameSite : Nat
deriving DecidableEq

/-- The goexpress request context, modelled from the spec's external-interface
contract: request method and path, a per-request key-value attachment point,
the response capture surface (status, headers, body), and outgoing cookies.
A `none` body models Go's nil `[]byte`. -/
structure Ctx : Type where
  method : String
  path : String
  kv : List (String × CtxVal)
  status : Nat
  headers : List (String × String)
  body : Option (List Nat)
  cookies : List SetCookieRec
deriving DecidableEq

/-- Context read capability (`c.Get`). -/
def ctxGet (c : Ctx) (key : String) : Option CtxVal :=
  lookupA c.kv key

/-- Context write capability (`c.Set`). -/
def ctxSet (c : Ctx) (key : String) (v : CtxVal) : Ctx :=
  { c with kv := insertA c.kv key v }

/-- Response header write capability (`c.SetHeader`). -/
def ctxSetHeader (c : Ctx) (k v : String) : Ctx :=
  { c with headers := insertA c.headers k v }

/-- Response status write capability (`c.Status`). -/
def ctxStatus (c : Ctx) (s : Nat) : Ctx :=
  { c with status := s }

/-- Response body write capability (`c.Send`). -/
def ctxSend (c : Ctx) (b : List Nat) : Ctx :=
  { c with body := some b }

/-- Cookie write capability (`c.Cookie`). -/
def ctxCookie (c : Ctx) (ck : SetCookieRec) : Ctx :=
  { c with cookies := c.cookies ++ [ck] }

/-- Session middleware configuration (`session.Config`). -/
structure SessionConfig : Type where
  cookieName : String
  cookiePath : String
  cookieDomain : String
  maxAge : Int
  secure : Bool
  httpOnly : Bool
  sameSite : Nat
  contextKey : String
deriving DecidableEq

/-- Embedding of `session.DefaultConfig` (24h max age in nanoseconds, lax
same-site encoded as 2 matching `http.SameSiteLaxMode`). -/
def DefaultConfig : SessionConfig :=
  { cookieName := "session_id"
    cookiePath := "/"
    cookieDomain := ""
    maxAge := 24 * 60 * 60 * 1000000000
    secure := false
    httpOnly := true
    sameSite := 2
    contextKey := "session" }

/-- Embedding of `session.GetSession`: reads the context under the literal
string key `"session"` (not the configured context key) and requires the
stored value to be a `*Session`. -/
def GetSession (c : Ctx) : Except SErr Session :=
  match ctxGet c "session" with
  | some (.vSess s) => .ok s
  | _ => .error .notFound

/-- Embedding of `session.Flash`: stores the value in the session under the
reserved key `"_flash_" + key`.  The Go code mutates the session through the
pointer held by the context; the embedding returns the context with the
session entry updated in place. -/
def Flash (c : Ctx) (key : String) (value : SVal) (now : Int) :
    Ctx × Option SErr :=
  match GetSession c with
  | .error e => (c, some e)
  | .ok s =>
    let flashKey := "_flash_" ++ key
    ({ c with kv := insertA c.kv "session" (.vSess (s.Set flashKey value now)) },
     none)

/-- Embedding of `session.GetFlash`: reads `"_flash_" + key` from the session
and, only when found, deletes it; returns `(value, ok)` plus the context with
the (possibly) mutated session. -/
def GetFlash (c : Ctx) (key : String) (now : Int) :
    (Option SVal × Bool) × Ctx :=
  match GetSession c with
  | .error _ => ((none, false), c)
  | .ok s =>
    let flashKey := "_flash_" ++ key
    match s.Get flashKey with
    | some value =>
      ((some value, true),
       { c with kv := insertA c.kv "session" (.vSess (s.Delete flashKey now)) })
    | none => ((none, false), c)

/-- Embedding of `session.RegenerateSession`, parametric in the store backend
(`setOp`/`delOp` close over the current time): resolves the old session, builds
the new one carrying the old data, saves it, and only then deletes the old one
and updates context and cookie.  The returned list is the ghost trace of
backend states traversed, in order, used to state the temporal claim. -/
def RegenerateSession {σ : Type} (setOp : σ → Session → σ × Option SErr)
    (delOp : σ → String → σ) (c : Ctx) (config : SessionConfig) (st : σ)
    (newId : String) (now : Int) : σ × Ctx × Option SErr × List σ :=
  match GetSession c with
  | .error e => (st, c, some e, [st])
  | .ok oldSession =>
    let newSession := { NewSession newId now config.maxAge with
                        Data := oldSession.Data }
    match setOp st newSession with
    | (st1, some e) => (st1, c, some e, [st, st1])
    | (st1, none) =>
      let st2 := delOp st1 oldSession.ID
      let c1 := ctxSet (ctxSet c config.contextKey (.vSess newSession))
        "session_id" (.vStr newSession.ID)
      let c2 := ctxCookie c1
        { name := config.cookieName
          value := newSession.ID
          path := config.cookiePath
          domain := config.cookieDomain
          maxAge := config.maxAge
          secure := config.secure
          httpOnly := config.httpOnly
          sameSite := config.sameSite }
      (st2, c2, none, [st, st1, st2])

/-- Cached HTTP response (`cache.CachedResponse`). -/
structure CachedResponse : Type where
  Status : Nat
  Headers : List (String × String)
  Body : List Nat
deriving DecidableEq

/-- Response recorder of the cache middleware (`cache.responseRecorder`);
`body = none` models the nil byte slice. -/
structure ResponseRecorder : Type where
  status : Nat
  headers : List (String × String)
  body : Option (List Nat)
deriving DecidableEq

/-- Cache middleware configuration (`cache.CacheConfig`); the `Cache` backend
handle is passed to the middleware separately as explicit state. -/
structure CacheMWConfig : Type where
  TTL : Int
  KeyFunc : Ctx → String
  SkipFunc : Option (Ctx → Bool)
  OnlyStatus : List Nat

/-- Embedding of `cache.DefaultCacheConfig`: 5 minute ttl (nanoseconds),
allow-list `{200}`, key `method + ":" + path`, no skip predicate. -/
def DefaultCacheConfig : CacheMWConfig :=
  { TTL := 5 * 60 * 1000000000
    OnlyStatus := [200]
    KeyFunc := fun c => c.method ++ ":" ++ c.path
    SkipFunc := none }

/-- Interface-level view of the middleware's cache backend: the stored
`CachedResponse` per key (`Cache.Get` deserializes into that shape, any
absence is a miss). -/
abbrev CacheMWState := List (String × CachedResponse)

/-- Request handler as the middleware sees it: consumes a context, produces
the updated context and an optional error. -/
abbrev Handler := Ctx → Ctx × Option String

/-- Embedding of `cache.Middleware`'s wrapped handler, one invocation.
Returns the updated context, the updated cache state, the returned error, and
the number of times the wrapped handler was invoked.  As in the source, the
response recorder is constructed with zero-valued fields and `next` is invoked
on `recorder.Context` — the original context — so the recorder fields are
never written before they are consulted. -/
def cacheMiddleware (config : CacheMWConfig) (next : Handler) (c : Ctx)
    (st : CacheMWState) : Ctx × CacheMWState × Option String × Nat :=
  if (match config.SkipFunc with | some f => f c | none => false) then
    let r := next c
    (r.1, st, r.2, 1)
  else if c.method ≠ "GET" ∧ c.method ≠ "HEAD" then
    let r := next c
    (r.1, st, r.2, 1)
  else
    let key := config.KeyFunc c
    match lookupA st key with
    | some cached =>
      let c1 := cached.Headers.foldl (fun acc h => ctxSetHeader acc h.1 h.2) c
      let c2 := ctxSend (ctxStatus c1 cached.Status) cached.Body
      (c2, st, none, 0)
    | none =>
      let recorder : ResponseRecorder := { status := 0, headers := [], body := none }
      let r := next c
      match r.2 with
      | some e => (r.1, st, some e, 1)
      | none =>
        let shouldCache := config.OnlyStatus.contains recorder.status
        if shouldCache ∧ recorder.body ≠ none then
          (r.1,
           insertA st key
             { Status := recorder.status
               Headers := recorder.headers
               Body := recorder.body.getD [] },
           none, 1)
        else (r.1, st, none, 1)

/-- Error taxonomy of the cache package: `ErrCacheMiss`, the Redis WRONGTYPE
error, Redis invalid-expire errors, JSON decode failures, and the error
returned by a `Remember` compute function. -/
inductive CErr : Type
  | miss
  | wrongType
  | invalidExpire
  | decodeFail
  | fnFail (msg : String)
deriving DecidableEq

/-- A Redis value: either a string (byte payload) or a set of members, each
with an optional absolute expiry deadline. -/
inductive RVal (β : Type) : Type
  | str (b : β) (dl : Option Int)
  | rset (ms : List String) (dl : Option Int)
deriving DecidableEq

/-- Redis keyspace used by the cache store. -/
abbrev RKV (β : Type) := List (String × RVal β)

/-- Deadline of a Redis value. -/
def RVal.dl {β : Type} : RVal β → Option Int
  | .str _ d => d
  | .rset _ d => d

/-- Redis value with its deadline replaced. -/
def RVal.withDl {β : Type} : RVal β → Option Int → RVal β
  | .str b _, d => .str b d
  | .rset ms _, d => .rset ms d

/-- A live (non-expired) Redis lookup at time `now`: a key whose deadline has
passed behaves as absent. -/
def rlive {β : Type} (st : RKV β) (k : String) (now : Int) : Option (RVal β) :=
  match lookupA st k with
  | none => none
  | some v =>
    match v.dl with
    | some d => if now ≥ d then none else some v
    | none => some v

/-- Redis GET of a string value: `redis.Nil` on absence, WRONGTYPE on a set. -/
def rGet {β : Type} (st : RKV β) (k : String) (now : Int) : Except CErr β :=
  match rlive st k now with
  | none => .error .miss
  | some (.str b _) => .ok b
  | some (.rset _ _) => .error .wrongType

/-- Redis SET of a string value with a relative ttl: zero means no expiry,
negative is an invalid-expire error, positive arms `now + ttl`. -/
def rSetVal {β : Type} (st : RKV β) (k : String) (b : β) (ttl : Int)
    (now : Int) : RKV β × Option CErr :=
  if ttl < 0 then (st, some .invalidExpire)
  else (insertA st k (.str b (if ttl > 0 then some (now + ttl) else none)), none)

/-- Redis DEL of several keys. -/
def rDel {β : Type} (st : RKV β) (ks : List String) : RKV β :=
  ks.foldl (fun s k => eraseA s k) st

/-- Redis SADD: creates the set when the key is absent (or natively expired),
WRONGTYPE when the key holds a string. -/
def rSAdd {β : Type} (st : RKV β) (k : String) (m : String) (now : Int) :
    RKV β × Option CErr :=
  match rlive st k now with
  | some (.str _ _) => (st, some .wrongType)
  | some (.rset ms d) =>
    (insertA st k (.rset (if m ∈ ms then ms else ms ++ [m]) d), none)
  | none => (insertA st k (.rset [m] none), none)

/-- Redis EXPIRE: re-arms the deadline of a live key; a non-positive ttl
deletes the key; returns whether the key existed. -/
def rExpire {β : Type} (st : RKV β) (k : String) (ttl : Int) (now : Int) :
    RKV β × Bool :=
  match rlive st k now with
  | none => (st, false)
  | some v =>
    if ttl ≤ 0 then (eraseA st k, true)
    else (insertA st k (v.withDl (some (now + ttl))), true)

/-- Redis SMEMBERS: the empty list on absence, WRONGTYPE on a string. -/
def rSMembers {β : Type} (st : RKV β) (k : String) (now : Int) :
    Except CErr (List String) :=
  match rlive st k now with
  | none => .ok []
  | some (.rset ms _) => .ok ms
  | some (.str _ _) => .error .wrongType

/-- Embedding of `RedisCache.Get`: prefixed GET then JSON-unmarshal (`dec`). -/
def RedisCache.Get {β V : Type} (pfx : String) (dec : β → Option V)
    (st : RKV β) (key : String) (now : Int) : Except CErr V :=
  match rGet st (pfx ++ key) now with
  | .error e => .error e
  | .ok data =>
    match dec data with
    | none => .error .decodeFail
    | some v => .ok v

/-- Embedding of `RedisCache.Set`: JSON-marshal (`enc`) then prefixed SET. -/
def RedisCache.Set {β V : Type} (pfx : String) (enc : V → β) (st : RKV β)
    (key : String) (value : V) (ttl : Int) (now : Int) : RKV β × Option CErr :=
  rSetVal st (pfx ++ key) (enc value) ttl now

/-- Embedding of `RedisCache.Delete`. -/
def RedisCache.Delete {β : Type} (pfx : String) (st : RKV β) (key : String) :
    RKV β :=
  eraseA st (pfx ++ key)

/-- Embedding of `RedisCache.Remember`: get, and on `ErrCacheMiss` only, run
the compute function, store its result, and re-marshal it into `dest`.  The
pure compute outcome is `fn`; the returned `Nat` counts how many times the
compute function was invoked. -/
def RedisCache.Remember {β V : Type} (pfx : String) (enc : V → β)
    (dec : β → Option V) (st : RKV β) (key : String) (ttl : Int)
    (fn : Except String V) (now : Int) : RKV β × Except CErr V × Nat :=
  match RedisCache.Get pfx dec st key now with
  | .ok v => (st, .ok v, 0)
  | .error e =>
    if e = CErr.miss then
      match fn with
      | .error fe => (st, .error (.fnFail fe), 1)
      | .ok value =>
        match RedisCache.Set pfx enc st key value ttl now with
        | (st1, some e1) => (st1, .error e1, 1)
        | (st1, none) =>
          match dec (enc value) with
          | none => (st1, .error .decodeFail, 1)
          | some v2 => (st1, .ok v2, 1)
    else (st, .error e, 0)

/-- Tag-index key namespace, hardcoded to `"tag:"` in `RedisCache.Tags`. -/
def tagPfx : String := "tag:"

/-- Embedding of `TaggedCache.Set`: stores the value, then for every tag adds
the key to the tag's index set (the SADD error is discarded, as in the source)
and, when `ttl > 0`, re-arms the tag key's expiry. -/
def TaggedCache.Set {β V : Type} (pfxC : String) (enc : V → β)
    (tags : List String) (st : RKV β) (key : String) (value : V) (ttl : Int)
    (now : Int) : RKV β × Option CErr :=
  match RedisCache.Set pfxC enc st key value ttl now with
  | (st1, some e) => (st1, some e)
  | (st1, none) =>
    let st2 := tags.foldl (fun s tag =>
      let tagKey := tagPfx ++ tag
      let s1 := (rSAdd s tagKey key now).1
      if ttl > 0 then (rExpire s1 tagKey ttl now).1 else s1) st1
    (st2, none)

/-- Embedding of `TaggedCache.Flush`: for each tag in order, read the tag's
member set, delete every referenced (prefixed) value key when the set is
non-empty, then delete the tag key itself; an SMEMBERS failure aborts with
that error. -/
def TaggedCache.Flush {β : Type} (pfxC : String) (tags : List String)
    (st : RKV β) (now : Int) : RKV β × Option CErr :=
  match tags with
  | [] => (st, none)
  | tag :: rest =>
    let tagKey := tagPfx ++ tag
    match rSMembers st tagKey now with
    | .error e => (st, some e)
    | .ok keys =>
      let st1 := if keys.length > 0 then rDel st (keys.map (fun k => pfxC ++ k))
                 else st
      let st2 := eraseA st1 tagKey
      TaggedCache.Flush pfxC rest st2 now

/-- Live member set of a tag-index key (empty unless the key holds a live
set), the list SMEMBERS reports. -/
def liveMembers {β : Type} (st : RKV β) (k : String) (now : Int) : List String :=
  match rlive st k now with
  | some (.rset ms _) => ms
  | _ => []

/-- Predicate that an optional Redis value is not a string payload (absent or
a set), so that SMEMBERS on it succeeds. -/
def notStr {β : Type} : Option (RVal β) → Bool
  | some (.str _ _) => false
  | _ => true

/-- Concrete empty request context used by witnesses. -/
def emptyCtx : Ctx :=
  { method := "GET"
    path := "/"
    kv := []
    status := 0
    headers := []
    body := none
    cookies := [] }

/-- Concrete GET request context used by the cache-middleware evaluation. -/
def getCtx : Ctx :=
  { emptyCtx with path := "/users" }

/-- Concrete handler that answers status 200 with a text body, used by the
cache-middleware evaluation. -/
def h200 : Handler :=
  fun c =>
    ({ c with
        status := 200
        headers := insertA c.headers "Content-Type" "text/plain"
        body := some [104, 105] }, none)

/-- Claim C9 counterexample: a session created by `NewSession` with a negative
max age is already expired at its creation instant, so `IsExpired` is not
false immediately after creation for every `NewSession`-created session. -/
theorem C9_cex_negative_maxAge :
    Session.IsExpired (NewSession "sid" 0 (-1)) 0 = true := by
  decide

/-- Claim C9 (amended with nonnegative max age): for `0 ≤ maxAge`, a session
created by `NewSession` is not expired at creation, is not expired at any time
up to and including its `ExpiresAt`, and is expired at any time strictly after
`ExpiresAt`. -/
theorem C9_isExpired_lifecycle (id : String) (now maxAge t : Int)
    (h : 0 ≤ maxAge) :
    Session.IsExpired (NewSession id now maxAge) now = false ∧
    (t ≤ (NewSession id now maxAge).ExpiresAt →
      Session.IsExpired (NewSession id now maxAge) t = false) ∧
    ((NewSession id now maxAge).ExpiresAt < t →
      Session.IsExpired (NewSession id now maxAge) t = true) := by
  refine ⟨?_, fun ht => ?_, fun ht => ?_⟩ <;>
    simp only [NewSession, Session.IsExpired] at * <;>
    simp <;> omega

/-- Claim C9 witness: the lifecycle theorem evaluated on a session of max age
ten created at time zero, probed at times 0, 10 and 11. -/
theorem C9_isExpired_lifecycle_witness :
    Session.IsExpired (NewSession "s" 0 10) 0 = false ∧
    Session.IsExpired (NewSession "s" 0 10) 10 = false ∧
    Session.IsExpired (NewSession "s" 0 10) 11 = true :=
  ⟨(C9_isExpired_lifecycle "s" 0 10 10 (by decide)).1,
   (C9_isExpired_lifecycle "s" 0 10 10 (by decide)).2.1 (by decide),
   (C9_isExpired_lifecycle "s" 0 10 11 (by decide)).2.2 (by decide)⟩

/-- Claim C6: `RedisStore.Set` of a session whose expiry minus the current
time is nonpositive fails with `ErrSessionExpired` and leaves the backend
untouched — the dead record is never persisted. -/
theorem C6_redis_set_rejects_dead {B : Type} (pfx : String)
    (enc : Session → B) (st : RSessState B) (s : Session) (now : Int)
    (h : s.ExpiresAt - now ≤ 0) :
    RedisStore.Set pfx enc st s now = (st, some SErr.expired) := by
  simp [RedisStore.Set, h]

/-- Claim C6 witness: saving a session whose expiry equals the current time
fails with `ErrSessionExpired` and stores nothing. -/
theorem C6_redis_set_rejects_dead_witness :
    RedisStore.Set "session:" (fun s => s) ([] : RSessState Session)
      ⟨"a", [], 0, 5, 0⟩ 5 = ([], some SErr.expired) :=
  C6_redis_set_rejects_dead "session:" (fun s => s) [] ⟨"a", [], 0, 5, 0⟩ 5
    (by decide)

/-- Claim C10: `GetSession` looks the session up under the literal key
`"session"`, not the configured context key: a middleware-populated context
with any other configured key makes `GetSession` fail with
`ErrSessionNotFound`, and `GetSession` succeeds exactly when a session value
sits under the literal key `"session"`. -/
theorem C10_getSession_fixed_key (cfgKey : String) (c0 : Ctx) (s : Session)
    (hk : cfgKey ≠ "session") (h0 : lookupA c0.kv "session" = none) :
    GetSession (ctxSet (ctxSet c0 cfgKey (.vSess s)) "session_id"
      (.vStr s.ID)) = .error SErr.notFound ∧
    (∀ c t, GetSession c = .ok t ↔ ctxGet c "session" = some (.vSess t)) := by
  constructor
  · have hne : ("session" : String) ≠ "session_id" := by decide
    simp only [GetSession, ctxGet, ctxSet, lookupA_insertA, if_neg hne,
      if_neg (Ne.symm hk), h0]
  · intro c t
    constructor
    · intro h
      unfold GetSession at h
      cases hc : ctxGet c "session" with
      | none => rw [hc] at h; simp at h
      | some v =>
        cases v with
        | vSess s2 =>
          rw [hc] at h
          simp only [Except.ok.injEq] at h
          rw [h]
        | vStr v2 => rw [hc] at h; simp at h
    · intro h
      unfold GetSession
      rw [h]

/-- Claim C10 witness: with the configured context key `"sess"` the
middleware-populated context yields `ErrSessionNotFound`, and the same
session under the literal key `"session"` is returned. -/
theorem C10_getSession_fixed_key_witness :
    GetSession (ctxSet (ctxSet emptyCtx "sess"
        (.vSess ⟨"sid", [], 0, 100, 0⟩)) "session_id" (.vStr "sid")) =
      .error SErr.notFound ∧
    GetSession { emptyCtx with
        kv := [("session", .vSess ⟨"sid", [], 0, 100, 0⟩)] } =
      .ok ⟨"sid", [], 0, 100, 0⟩ :=
  ⟨(C10_getSession_fixed_key "sess" emptyCtx ⟨"sid", [], 0, 100, 0⟩
      (by decide) rfl).1,
   ((C10_getSession_fixed_key "sess" emptyCtx ⟨"sid", [], 0, 100, 0⟩
      (by decide) rfl).2 _ _).mpr rfl⟩

/-- Claim C4: after `Flash(c, k, v)`, the first `GetFlash(c, k)` returns the
value with `ok = true` and removes the entry, and a second `GetFlash` in the
same request observes absence — each flash write permits at most one
successful read. -/
theorem C4_flash_at_most_once (c : Ctx) (s : Session) (k : String) (v : SVal)
    (t1 t2 t3 : Int) (h : ctxGet c "session" = some (.vSess s)) :
    (Flash c k v t1).2 = none ∧
    (GetFlash (Flash c k v t1).1 k t2).1 = (some v, true) ∧
    (GetFlash (GetFlash (Flash c k v t1).1 k t2).2 k t3).1 = (none, false) := by
  have h' := h
  unfold ctxGet at h'
  refine ⟨?_, ?_, ?_⟩
  · simp [Flash, GetSession, ctxGet, h']
  · simp [Flash, GetFlash, GetSession, ctxGet, h', Session.Get, Session.Set,
      lookupA_insertA_self]
  · simp [Flash, GetFlash, GetSession, ctxGet, h', Session.Get, Session.Set,
      Session.Delete, lookupA_insertA_self, lookupA_eraseA]

/-- Claim C4 witness: the flash round trip evaluated on a concrete context
holding a concrete session. -/
theorem C4_flash_at_most_once_witness :
    (Flash { emptyCtx with kv := [("session", .vSess ⟨"sid", [], 0, 100, 0⟩)] }
        "notice" (.vStr "saved") 1).2 = none ∧
    (GetFlash (Flash { emptyCtx with
        kv := [("session", .vSess ⟨"sid", [], 0, 100, 0⟩)] }
        "notice" (.vStr "saved") 1).1 "notice" 2).1 =
      (some (.vStr "saved"), true) ∧
    (GetFlash (GetFlash (Flash { emptyCtx with
        kv := [("session", .vSess ⟨"sid", [], 0, 100, 0⟩)] }
        "notice" (.vStr "saved") 1).1 "notice" 2).2 "notice" 3).1 =
      (none, false) :=
  C4_flash_at_most_once _ ⟨"sid", [], 0, 100, 0⟩ "notice" (.vStr "saved")
    1 2 3 rfl

/-- Claim C3 counterexample: the in-memory backend does not delete an expired
record on `Get` — the method holds a read lock and performs no mutation — so
a subsequent load of the same id still returns `ErrSessionExpired`, not
`ErrSessionNotFound`, refuting the claim for the in-memory backend. -/
theorem C3_cex_memory_keeps_expired :
    MemoryStore.Get [("sid", (⟨"sid", [], 0, 5, 0⟩ : Session))] "sid" 10 =
      .error SErr.expired ∧
    MemoryStore.Get [("sid", (⟨"sid", [], 0, 5, 0⟩ : Session))] "sid" 10 ≠
      .error SErr.notFound := by
  constructor
  · rfl
  · intro hcontra
    have h1 : MemoryStore.Get [("sid", (⟨"sid", [], 0, 5, 0⟩ : Session))]
        "sid" 10 = .error SErr.expired := rfl
    rw [h1] at hcontra
    simp at hcontra

/-- Claim C3 (amended): on finding an expired record, `Get` returns
`ErrSessionExpired` on both backends; the Redis backend additionally deletes
the record so that a second load of the same id returns `ErrSessionNotFound`,
while the in-memory backend leaves the record in place (it is non-mutating),
so repeated loads keep returning `ErrSessionExpired` until `Cleanup` runs. -/
theorem C3_expired_record_handling {B : Type} (pfx : String)
    (dec : B → Option Session) (st : RSessState B) (mst : MemState)
    (id : String) (now dl : Int) (b : B) (s : Session)
    (hm : lookupA mst id = some s) (hex : s.IsExpired now = true)
    (hr : lookupA st (pfx ++ id) = some (b, dl)) (hlive : ¬ now ≥ dl)
    (hdec : dec b = some s) :
    MemoryStore.Get mst id now = .error SErr.expired ∧
    RedisStore.Get pfx dec st id now =
      (.error SErr.expired, eraseA st (pfx ++ id)) ∧
    (RedisStore.Get pfx dec (RedisStore.Get pfx dec st id now).2 id
      now).1 = .error SErr.notFound := by
  refine ⟨?_, ?_, ?_⟩
  · simp [MemoryStore.Get, hm, hex]
  · simp [RedisStore.Get, hr, hlive, hdec, hex]
  · have h2 : RedisStore.Get pfx dec st id now =
        (.error SErr.expired, eraseA st (pfx ++ id)) := by
      simp [RedisStore.Get, hr, hlive, hdec, hex]
    rw [h2]
    simp [RedisStore.Get, lookupA_eraseA]

/-- Claim C3 witness: the amended theorem evaluated on a session expired at
time 5 and loaded at time 10 from both backends. -/
theorem C3_expired_record_handling_witness :
    MemoryStore.Get [("sid", (⟨"sid", [], 0, 5, 0⟩ : Session))] "sid" 10 =
      .error SErr.expired ∧
    RedisStore.Get "session:" some
        [("session:sid", ((⟨"sid", [], 0, 5, 0⟩ : Session), (100 : Int)))]
        "sid" 10 =
      (.error SErr.expired,
        eraseA [("session:sid", ((⟨"sid", [], 0, 5, 0⟩ : Session), (100 : Int)))]
          "session:sid") ∧
    (RedisStore.Get "session:" some
        (RedisStore.Get "session:" some
          [("session:sid", ((⟨"sid", [], 0, 5, 0⟩ : Session), (100 : Int)))]
          "sid" 10).2 "sid" 10).1 = .error SErr.notFound :=
  C3_expired_record_handling "session:" some _ _ "sid" 10 100
    ⟨"sid", [], 0, 5, 0⟩ ⟨"sid", [], 0, 5, 0⟩ rfl (by decide) rfl
    (by decide) rfl

/-- Claim C2 counterexample: the cookie backend breaks the save/load(id) round
trip.  For an unexpired session with an empty id, `Set` succeeds as a no-op
but `Get` on the session's id fails with `ErrSessionNotFound` (it decodes the
cookie value it is given, not a server-side record), even with maximally
charitable transport decode and unmarshal functions; and on the Redis backend
a session whose expiry equals the current time is unexpired, yet `Set`
already fails with `ErrSessionExpired`. -/
theorem C2_cex_cookie_and_redis_edge :
    Session.IsExpired (⟨"", [("k", SVal.vStr "v")], 0, 100, 0⟩ : Session) 0 =
      false ∧
    CookieStore.Set (⟨"", [("k", SVal.vStr "v")], 0, 100, 0⟩ : Session) =
      none ∧
    CookieStore.Get
      (fun _ => some (⟨"", [("k", SVal.vStr "v")], 0, 100, 0⟩ : Session))
      some "" 0 = .error SErr.notFound ∧
    Session.IsExpired (⟨"sid", [("k", SVal.vStr "v")], 0, 100, 0⟩ : Session)
      100 = false ∧
    RedisStore.Set "session:" (fun s => s) ([] : RSessState Session)
      ⟨"sid", [("k", SVal.vStr "v")], 0, 100, 0⟩ 100 =
      ([], some SErr.expired) := by
  refine ⟨by decide, rfl, rfl, by decide, rfl⟩

/-- Claim C2 (amended): the save/load round trip with identical data holds for
the in-memory backend for every session unexpired at load time, and for the
Redis backend for every faithfully serialized session loaded strictly before
its expiry (at the expiry instant `Set` already fails); for the cookie backend
the round trip is via `Encode`, not `Set`/`Get(id)`: `Get` of the encoded
session returns the session itself. -/
theorem C2_roundtrip_per_backend {B1 B2 : Type} (pfx : String)
    (enc : Session → B1) (dec : B1 → Option Session) (m : Session → B2)
    (enc64 : B2 → String) (dec64 : String → Option B2)
    (unm : B2 → Option Session) (st : RSessState B1) (mst : MemState)
    (s : Session) (now : Int)
    (hunexp : s.IsExpired now = false)
    (hcodec : dec (enc s) = some s)
    (h64 : dec64 (enc64 (m s)) = some (m s))
    (hunm : unm (m s) = some s)
    (hnonempty : enc64 (m s) ≠ "") :
    MemoryStore.Get (MemoryStore.Set mst s) s.ID now = .ok s ∧
    (now < s.ExpiresAt →
      (RedisStore.Set pfx enc st s now).2 = none ∧
      (RedisStore.Get pfx dec (RedisStore.Set pfx enc st s now).1 s.ID
        now).1 = .ok s) ∧
    CookieStore.Get dec64 unm (CookieStore.Encode m enc64 s) now = .ok s := by
  refine ⟨?_, fun hstrict => ?_, ?_⟩
  · simp [MemoryStore.Get, MemoryStore.Set, lookupA_insertA_self, hunexp]
  · have hset : RedisStore.Set pfx enc st s now =
        (insertA st (pfx ++ s.ID) (enc s, now + (s.ExpiresAt - now)),
         none) := by
      simp only [RedisStore.Set]
      rw [if_neg (by omega)]
    refine ⟨by rw [hset], ?_⟩
    rw [hset]
    simp only [RedisStore.Get, lookupA_insertA_self]
    rw [if_neg (by omega), hcodec]
    simp [hunexp]
  · simp [CookieStore.Get, CookieStore.Encode, hnonempty, h64, hunm, hunexp]

/-- Claim C2 witness: the amended round trip evaluated on a concrete session
with identity-style serialization capabilities — the in-memory and cookie
backends at the boundary instant `now = ExpiresAt` (unexpired but not
strictly before expiry), the Redis backend strictly before expiry. -/
theorem C2_roundtrip_per_backend_witness :
    MemoryStore.Get
      (MemoryStore.Set [] ⟨"sid", [("k", SVal.vStr "v")], 0, 100, 0⟩)
      "sid" 100 = .ok ⟨"sid", [("k", SVal.vStr "v")], 0, 100, 0⟩ ∧
    (RedisStore.Set "session:" (fun s => s) ([] : RSessState Session)
      ⟨"sid", [("k", SVal.vStr "v")], 0, 100, 0⟩ 10).2 = none ∧
    (RedisStore.Get "session:" some
      (RedisStore.Set "session:" (fun s => s) ([] : RSessState Session)
        ⟨"sid", [("k", SVal.vStr "v")], 0, 100, 0⟩ 10).1 "sid" 10).1 =
      .ok ⟨"sid", [("k", SVal.vStr "v")], 0, 100, 0⟩ ∧
    CookieStore.Get
      (fun v => if v = "enc" then
          some (⟨"sid", [("k", SVal.vStr "v")], 0, 100, 0⟩ : Session)
        else none)
      some
      (CookieStore.Encode (fun s => s) (fun _ => "enc")
        ⟨"sid", [("k", SVal.vStr "v")], 0, 100, 0⟩) 100 =
      .ok ⟨"sid", [("k", SVal.vStr "v")], 0, 100, 0⟩ :=
  ⟨(C2_roundtrip_per_backend "session:" (fun s => s) some (fun s => s)
      (fun _ => "enc")
      (fun v => if v = "enc" then
          some (⟨"sid", [("k", SVal.vStr "v")], 0, 100, 0⟩ : Session)
        else none)
      some [] [] ⟨"sid", [("k", SVal.vStr "v")], 0, 100, 0⟩ 100
      (by decide) rfl (by decide) rfl (by decide)).1,
   ((C2_roundtrip_per_backend "session:" (fun s => s) some (fun s => s)
      (fun _ => "enc")
      (fun v => if v = "enc" then
          some (⟨"sid", [("k", SVal.vStr "v")], 0, 100, 0⟩ : Session)
        else none)
      some [] [] ⟨"sid", [("k", SVal.vStr "v")], 0, 100, 0⟩ 10
      (by decide) rfl (by decide) rfl (by decide)).2.1 (by decide)).1,
   ((C2_roundtrip_per_backend "session:" (fun s => s) some (fun s => s)
      (fun _ => "enc")
      (fun v => if v = "enc" then
          some (⟨"sid", [("k", SVal.vStr "v")], 0, 100, 0⟩ : Session)
        else none)
      some [] [] ⟨"sid", [("k", SVal.vStr "v")], 0, 100, 0⟩ 10
      (by decide) rfl (by decide) rfl (by decide)).2.1 (by decide)).2,
   (C2_roundtrip_per_backend "session:" (fun s => s) some (fun s => s)
      (fun _ => "enc")
      (fun v => if v = "enc" then
          some (⟨"sid", [("k", SVal.vStr "v")], 0, 100, 0⟩ : Session)
        else none)
      some [] [] ⟨"sid", [("k", SVal.vStr "v")], 0, 100, 0⟩ 100
      (by decide) rfl (by decide) rfl (by decide)).2.2⟩

theorem string_append_left_cancel {a b c : String} (h : a ++ b = a ++ c) :
    b = c := by
  have hd : (a ++ b).data = (a ++ c).data := by rw [h]
  rw [String.data_append, String.data_append] at hd
  exact String.ext (List.append_cancel_left hd)

/-- Claim C5: `RegenerateSession` (instantiated with the Redis backend) saves
the new session, carrying the old session's data, before deleting the old
one: when the save fails the returned error is surfaced with the store
unchanged and the old session still present, and on success every backend
state in the ghost trace still holds the old session or already holds the new
one — at no point are both absent. -/
theorem C5_regenerate_saves_before_delete {B : Type} (pfx : String)
    (enc : Session → B) (st : RSessState B) (c : Ctx)
    (config : SessionConfig) (old : Session) (newId : String) (now : Int)
    (hold : ctxGet c "session" = some (.vSess old))
    (hpres : lookupA st (pfx ++ old.ID) ≠ none)
    (hid : newId ≠ old.ID) :
    (config.maxAge ≤ 0 →
      RegenerateSession (fun st0 sess => RedisStore.Set pfx enc st0 sess now)
        (RedisStore.Delete pfx) c config st newId now =
        (st, c, some SErr.expired, [st, st])) ∧
    (0 < config.maxAge →
      (RegenerateSession (fun st0 sess => RedisStore.Set pfx enc st0 sess now)
        (RedisStore.Delete pfx) c config st newId now).2.2.1 = none ∧
      ∀ x ∈ (RegenerateSession
          (fun st0 sess => RedisStore.Set pfx enc st0 sess now)
          (RedisStore.Delete pfx) c config st newId now).2.2.2,
        lookupA x (pfx ++ old.ID) ≠ none ∨ lookupA x (pfx ++ newId) ≠ none) := by
  have h' := hold
  unfold ctxGet at h'
  have hg : GetSession c = .ok old := by
    unfold GetSession ctxGet
    rw [h']
  have hkne : pfx ++ newId ≠ pfx ++ old.ID := by
    intro hcontra
    exact hid (string_append_left_cancel hcontra)
  constructor
  · intro hle
    have hsetfail : RedisStore.Set pfx enc st
        { NewSession newId now config.maxAge with Data := old.Data } now =
        (st, some SErr.expired) := by
      simp only [RedisStore.Set, NewSession]
      rw [if_pos (by omega)]
    simp only [RegenerateSession, hg, hsetfail]
  · intro hlt
    have hsetok : RedisStore.Set pfx enc st
        { NewSession newId now config.maxAge with Data := old.Data } now =
        (insertA st (pfx ++ newId)
          (enc { NewSession newId now config.maxAge with Data := old.Data },
           now + (now + config.maxAge - now)), none) := by
      simp only [RedisStore.Set, NewSession]
      rw [if_neg (by omega)]
    constructor
    · simp only [RegenerateSession, hg, hsetok]
    · intro x hx
      simp only [RegenerateSession, hg, hsetok] at hx
      simp only [List.mem_cons, List.mem_singleton] at hx
      rcases hx with hx | hx | hx | hfalse
      · left; rw [hx]; exact hpres
      · right; rw [hx, lookupA_insertA_self]; simp
      · right
        rw [hx]
        unfold RedisStore.Delete
        rw [lookupA_eraseA, if_neg hkne, lookupA_insertA_self]
        simp
      · cases hfalse

/-- Claim C5 witness: regeneration evaluated concretely against the Redis
store model, in both the failing-save case (nonpositive max age, old session
untouched) and the successful case (trace states each hold old or new). -/
theorem C5_regenerate_saves_before_delete_witness :
    RegenerateSession
      (fun st0 sess => RedisStore.Set "session:" (fun s => s) st0 sess 10)
      (RedisStore.Delete "session:")
      { emptyCtx with kv := [("session",
          .vSess ⟨"old", [("u", SVal.vStr "x")], 0, 50, 0⟩)] }
      { DefaultConfig with maxAge := 0 }
      [("session:old", ((⟨"old", [("u", SVal.vStr "x")], 0, 50, 0⟩ : Session),
        (50 : Int)))] "new" 10 =
      ([("session:old", ((⟨"old", [("u", SVal.vStr "x")], 0, 50, 0⟩ : Session),
        (50 : Int)))],
       { emptyCtx with kv := [("session",
          .vSess ⟨"old", [("u", SVal.vStr "x")], 0, 50, 0⟩)] },
       some SErr.expired,
       [[("session:old", ((⟨"old", [("u", SVal.vStr "x")], 0, 50, 0⟩ : Session),
          (50 : Int)))],
        [("session:old", ((⟨"old", [("u", SVal.vStr "x")], 0, 50, 0⟩ : Session),
          (50 : Int)))]]) ∧
    (RegenerateSession
      (fun st0 sess => RedisStore.Set "session:" (fun s => s) st0 sess 10)
      (RedisStore.Delete "session:")
      { emptyCtx with kv := [("session",
          .vSess ⟨"old", [("u", SVal.vStr "x")], 0, 50, 0⟩)] }
      { DefaultConfig with maxAge := 40 }
      [("session:old", ((⟨"old", [("u", SVal.vStr "x")], 0, 50, 0⟩ : Session),
        (50 : Int)))] "new" 10).2.2.1 = none :=
  ⟨(C5_regenerate_saves_before_delete "session:" (fun s => s)
      [("session:old", ((⟨"old", [("u", SVal.vStr "x")], 0, 50, 0⟩ : Session),
        (50 : Int)))]
      { emptyCtx with kv := [("session",
          .vSess ⟨"old", [("u", SVal.vStr "x")], 0, 50, 0⟩)] }
      { DefaultConfig with maxAge := 0 }
      ⟨"old", [("u", SVal.vStr "x")], 0, 50, 0⟩ "new" 10 rfl
      (by decide) (by decide)).1 (by decide),
   ((C5_regenerate_saves_before_delete "session:" (fun s => s)
      [("session:old", ((⟨"old", [("u", SVal.vStr "x")], 0, 50, 0⟩ : Session),
        (50 : Int)))]
      { emptyCtx with kv := [("session",
          .vSess ⟨"old", [("u", SVal.vStr "x")], 0, 50, 0⟩)] }
      { DefaultConfig with maxAge := 40 }
      ⟨"old", [("u", SVal.vStr "x")], 0, 50, 0⟩ "new" 10 rfl
      (by decide) (by decide)).2 (by decide)).1⟩

/-- Claim C1 evaluation: because `next` runs against the original context and
the response recorder's fields are never written, the cache middleware never
stores anything — for every configuration, handler, request and starting cache
the cache state is returned unchanged — and concretely, on a GET request with
a 200-status handler and an empty cache, the first invocation runs the handler
once and stores nothing, so the second invocation runs the handler again
instead of replaying a cached response. -/
theorem C1_cache_middleware_never_stores :
    (∀ (config : CacheMWConfig) (next : Handler) (c : Ctx)
      (st : CacheMWState), (cacheMiddleware config next c st).2.1 = st) ∧
    (cacheMiddleware DefaultCacheConfig h200 getCtx []).2.2.2 = 1 ∧
    (cacheMiddleware DefaultCacheConfig h200 getCtx []).2.1 = [] ∧
    (cacheMiddleware DefaultCacheConfig h200 getCtx
      (cacheMiddleware DefaultCacheConfig h200 getCtx []).2.1).2.2.2 = 1 := by
  have hgen : ∀ (config : CacheMWConfig) (next : Handler) (c : Ctx)
      (st : CacheMWState), (cacheMiddleware config next c st).2.1 = st := by
    intro config next c st
    unfold cacheMiddleware
    dsimp only
    split
    · rfl
    · split
      · rfl
      · split
        · rfl
        · split
          · rfl
          · simp
  refine ⟨hgen, by decide, ?_, ?_⟩
  · exact hgen DefaultCacheConfig h200 getCtx []
  · rw [hgen DefaultCacheConfig h200 getCtx []]
    decide

/-- Claim C7: a single `Remember` call invokes its compute function at most
once — zero times when the cache read hits (or fails with a non-miss error),
exactly once on a miss — and when the compute function fails nothing is
stored and the failure is returned to the caller. -/
theorem C7_remember_compute_once {β V : Type} (pfx : String) (enc : V → β)
    (dec : β → Option V) (st : RKV β) (key : String) (ttl : Int)
    (fn : Except String V) (now : Int) :
    (RedisCache.Remember pfx enc dec st key ttl fn now).2.2 ≤ 1 ∧
    (∀ v, RedisCache.Get pfx dec st key now = .ok v →
      RedisCache.Remember pfx enc dec st key ttl fn now = (st, .ok v, 0)) ∧
    (RedisCache.Get pfx dec st key now = .error .miss →
      (RedisCache.Remember pfx enc dec st key ttl fn now).2.2 = 1) ∧
    (∀ e, RedisCache.Get pfx dec st key now = .error CErr.miss →
      fn = .error e →
      RedisCache.Remember pfx enc dec st key ttl fn now =
        (st, .error (.fnFail e), 1)) := by
  refine ⟨?_, ?_, ?_, ?_⟩
  · unfold RedisCache.Remember
    cases hget : RedisCache.Get pfx dec st key now with
    | ok v => simp
    | error e =>
      dsimp only
      by_cases he : e = CErr.miss
      · subst he
        rw [if_pos rfl]
        cases fn with
        | error fe => simp
        | ok value =>
          dsimp only
          rcases hset : RedisCache.Set pfx enc st key value ttl now
            with ⟨st1, oe⟩
          cases oe with
          | some e1 => simp
          | none =>
            rcases hdec : dec (enc value) with _ | v2 <;> simp
      · simp [he]
  · intro v hget
    unfold RedisCache.Remember
    rw [hget]
  · intro hget
    unfold RedisCache.Remember
    rw [hget]
    dsimp only
    rw [if_pos rfl]
    cases fn with
    | error fe => rfl
    | ok value =>
      dsimp only
      rcases hset : RedisCache.Set pfx enc st key value ttl now
        with ⟨st1, oe⟩
      cases oe with
      | some e1 => rfl
      | none =>
        rcases hdec : dec (enc value) with _ | v2 <;> rfl
  · intro e hget hfn
    unfold RedisCache.Remember
    rw [hget, hfn]
    simp

/-- Claim C7 witness: `Remember` evaluated on an empty cache with a failing
compute function — the function runs exactly once, the cache is unchanged,
and the failure is returned. -/
theorem C7_remember_compute_once_witness :
    RedisCache.Remember "cache:" (fun n => n) some ([] : RKV Nat) "users"
      60 (.error "boom") 0 = ([], .error (.fnFail "boom"), 1) :=
  (C7_remember_compute_once "cache:" (fun n => n) some [] "users" 60
    (.error "boom") 0).2.2.2 "boom" rfl rfl

theorem lookupA_rDel {β : Type} (ks : List String) (st : RKV β) (x : String) :
    lookupA (rDel st ks) x = if x ∈ ks then none else lookupA st x := by
  induction ks generalizing st with
  | nil => simp [rDel]
  | cons k rest ih =>
    have hstep : rDel st (k :: rest) = rDel (eraseA st k) rest := rfl
    rw [hstep, ih]
    by_cases hx : x ∈ rest
    · simp [hx]
    · rw [lookupA_eraseA]
      by_cases hk : x = k
      · simp [hx, hk]
      · simp [hx, hk]

theorem rlive_eraseA {β : Type} (st : RKV β) (y x : String) (now : Int) :
    rlive (eraseA st y) x now = if x = y then none else rlive st x now := by
  unfold rlive
  rw [lookupA_eraseA]
  by_cases h : x = y <;> simp [h]

theorem rlive_rDel {β : Type} (st : RKV β) (ks : List String) (x : String)
    (now : Int) :
    rlive (rDel st ks) x now = if x ∈ ks then none else rlive st x now := by
  unfold rlive
  rw [lookupA_rDel]
  by_cases h : x ∈ ks <;> simp [h]

theorem notStr_eraseA {β : Type} (st : RKV β) (y x : String) (now : Int)
    (h : notStr (rlive st x now) = true) :
    notStr (rlive (eraseA st y) x now) = true := by
  rw [rlive_eraseA]
  by_cases hxy : x = y
  · simp [hxy, notStr]
  · simp [hxy, h]

theorem notStr_rDel {β : Type} (st : RKV β) (ks : List String) (x : String)
    (now : Int) (h : notStr (rlive st x now) = true) :
    notStr (rlive (rDel st ks) x now) = true := by
  rw [rlive_rDel]
  by_cases hx : x ∈ ks
  · simp [hx, notStr]
  · simp [hx, h]

theorem rSMembers_ok_of_notStr {β : Type} (st : RKV β) (k : String)
    (now : Int) (h : notStr (rlive st k now) = true) :
    rSMembers st k now = .ok (liveMembers st k now) := by
  unfold rSMembers liveMembers
  cases hl : rlive st k now with
  | none => rfl
  | some v =>
    cases v with
    | str b d =>
      rw [hl] at h
      simp [notStr] at h
    | rset ms d => rfl

/-- Backend state after processing one tag inside `TaggedCache.Flush`: the
tag's referenced value keys are deleted (when the member list is non-empty)
and then the tag-index key itself is deleted. -/
def flushStep {β : Type} (pfxC : String) (st : RKV β) (tag : String)
    (now : Int) : RKV β :=
  eraseA
    (if (liveMembers st (tagPfx ++ tag) now).length > 0
     then rDel st ((liveMembers st (tagPfx ++ tag) now).map
       (fun k => pfxC ++ k))
     else st)
    (tagPfx ++ tag)

theorem flush_cons_eq {β : Type} (pfxC tagH : String) (rest : List String)
    (st : RKV β) (now : Int)
    (h : notStr (rlive st (tagPfx ++ tagH) now) = true) :
    TaggedCache.Flush pfxC (tagH :: rest) st now =
      TaggedCache.Flush pfxC rest (flushStep pfxC st tagH now) now := by
  have hone : TaggedCache.Flush pfxC (tagH :: rest) st now =
      match rSMembers st (tagPfx ++ tagH) now with
      | .error e => (st, some e)
      | .ok keys =>
        TaggedCache.Flush pfxC rest
          (eraseA
            (if keys.length > 0
             then rDel st (keys.map (fun k => pfxC ++ k)) else st)
            (tagPfx ++ tagH)) now := rfl
  rw [hone, rSMembers_ok_of_notStr st _ now h]
  rfl

theorem lookupA_flushStep_self {β : Type} (pfxC : String) (st : RKV β)
    (tagH : String) (now : Int) :
    lookupA (flushStep pfxC st tagH now) (tagPfx ++ tagH) = none := by
  unfold flushStep
  rw [lookupA_eraseA, if_pos rfl]

theorem lookupA_flushStep_none {β : Type} (pfxC : String) (st : RKV β)
    (tagH x : String) (now : Int) (h : lookupA st x = none) :
    lookupA (flushStep pfxC st tagH now) x = none := by
  unfold flushStep
  rw [lookupA_eraseA]
  by_cases hx : x = tagPfx ++ tagH
  · simp [hx]
  · rw [if_neg hx]
    by_cases hl : (liveMembers st (tagPfx ++ tagH) now).length > 0
    · rw [if_pos hl, lookupA_rDel]
      by_cases hm : x ∈ (liveMembers st (tagPfx ++ tagH) now).map
          (fun k => pfxC ++ k)
      · simp [hm]
      · simp [hm, h]
    · rw [if_neg hl]
      exact h

theorem notStr_flushStep {β : Type} (pfxC : String) (st : RKV β)
    (tagH x : String) (now : Int) (h : notStr (rlive st x now) = true) :
    notStr (rlive (flushStep pfxC st tagH now) x now) = true := by
  unfold flushStep
  apply notStr_eraseA
  by_cases hl : (liveMembers st (tagPfx ++ tagH) now).length > 0
  · rw [if_pos hl]
    exact notStr_rDel st _ x now h
  · rw [if_neg hl]
    exact h

theorem flushStep_members_deleted {β : Type} (pfxC : String) (st : RKV β)
    (tagH k : String) (now : Int)
    (hk : k ∈ liveMembers st (tagPfx ++ tagH) now) :
    lookupA (flushStep pfxC st tagH now) (pfxC ++ k) = none := by
  have hlen : (liveMembers st (tagPfx ++ tagH) now).length > 0 := by
    cases hmem : liveMembers st (tagPfx ++ tagH) now with
    | nil => rw [hmem] at hk; cases hk
    | cons a b => simp [hmem]
  unfold flushStep
  rw [lookupA_eraseA]
  by_cases hx : pfxC ++ k = tagPfx ++ tagH
  · simp [hx]
  · rw [if_neg hx, if_pos hlen, lookupA_rDel,
      if_pos (List.mem_map_of_mem _ hk)]

theorem tag_cache_keys_disjoint (a b : String) :
    tagPfx ++ a ≠ "cache:" ++ b := by
  intro h
  have h2 : (tagPfx ++ a).data = (("cache:" : String) ++ b).data := by rw [h]
  rw [String.data_append, String.data_append] at h2
  have h3 : tagPfx.data = ['t', 'a', 'g', ':'] := rfl
  have h4 : ("cache:" : String).data = ['c', 'a', 'c', 'h', 'e', ':'] := rfl
  rw [h3, h4] at h2
  rw [show (['t', 'a', 'g', ':'] : List Char) ++ a.data =
        't' :: (['a', 'g', ':'] ++ a.data) from rfl,
      show (['c', 'a', 'c', 'h', 'e', ':'] : List Char) ++ b.data =
        'c' :: (['a', 'c', 'h', 'e', ':'] ++ b.data) from rfl] at h2
  injection h2 with hc _
  exact absurd hc (by decide)

theorem lookupA_flushStep_other_tag {β : Type} (st : RKV β)
    (tagH tag : String) (now : Int)
    (hne : tagPfx ++ tag ≠ tagPfx ++ tagH) :
    lookupA (flushStep "cache:" st tagH now) (tagPfx ++ tag) =
      lookupA st (tagPfx ++ tag) := by
  unfold flushStep
  rw [lookupA_eraseA, if_neg hne]
  by_cases hl : (liveMembers st (tagPfx ++ tagH) now).length > 0
  · rw [if_pos hl, lookupA_rDel, if_neg ?_]
    intro hm
    rcases List.mem_map.mp hm with ⟨k0, _, hk0⟩
    exact tag_cache_keys_disjoint tag k0 hk0.symm
  · rw [if_neg hl]

theorem flush_only_deletes {β : Type} (pfxC : String) (tags : List String)
    (now : Int) (x : String) :
    ∀ st : RKV β, lookupA st x = none →
      lookupA (TaggedCache.Flush pfxC tags st now).1 x = none := by
  induction tags with
  | nil =>
    intro st h
    exact h
  | cons tagH rest ih =>
    intro st h
    have hone : TaggedCache.Flush pfxC (tagH :: rest) st now =
        match rSMembers st (tagPfx ++ tagH) now with
        | .error e => (st, some e)
        | .ok keys =>
          TaggedCache.Flush pfxC rest
            (eraseA
              (if keys.length > 0
               then rDel st (keys.map (fun k => pfxC ++ k)) else st)
              (tagPfx ++ tagH)) now := rfl
    rw [hone]
    cases hms : rSMembers st (tagPfx ++ tagH) now with
    | error e => exact h
    | ok keys =>
      dsimp only
      apply ih
      rw [lookupA_eraseA]
      by_cases hx : x = tagPfx ++ tagH
      · simp [hx]
      · rw [if_neg hx]
        by_cases hl : keys.length > 0
        · rw [if_pos hl, lookupA_rDel]
          by_cases hm : x ∈ keys.map (fun k => pfxC ++ k)
          · simp [hm]
          · simp [hm, h]
        · rw [if_neg hl]
          exact h

theorem flush_err_none {β : Type} (pfxC : String) (tags : List String)
    (now : Int) :
    ∀ st : RKV β,
      (∀ tag ∈ tags, notStr (rlive st (tagPfx ++ tag) now) = true) →
      (TaggedCache.Flush pfxC tags st now).2 = none := by
  induction tags with
  | nil =>
    intro st h
    rfl
  | cons tagH rest ih =>
    intro st h
    rw [flush_cons_eq pfxC tagH rest st now (h tagH (by simp))]
    exact ih _ (fun t ht =>
      notStr_flushStep pfxC st tagH _ now (h t (by simp [ht])))

theorem flush_tagKeys_none {β : Type} (pfxC : String) (tags : List String)
    (now : Int) :
    ∀ st : RKV β,
      (∀ tag ∈ tags, notStr (rlive st (tagPfx ++ tag) now) = true) →
      ∀ tag ∈ tags,
        lookupA (TaggedCache.Flush pfxC tags st now).1 (tagPfx ++ tag) =
          none := by
  induction tags with
  | nil =>
    intro st h tag ht
    exact absurd ht (by simp)
  | cons tagH rest ih =>
    intro st h tag ht
    rw [flush_cons_eq pfxC tagH rest st now (h tagH (by simp))]
    rcases List.mem_cons.mp ht with h1 | h1
    · subst h1
      exact flush_only_deletes pfxC rest now _ _
        (lookupA_flushStep_self pfxC st tag now)
    · exact ih _ (fun t htt =>
        notStr_flushStep pfxC st tagH _ now (h t (by simp [htt]))) tag h1

theorem flush_members_deleted {β : Type} (tags : List String) (now : Int) :
    ∀ st : RKV β,
      (∀ tag ∈ tags, notStr (rlive st (tagPfx ++ tag) now) = true) →
      ∀ tag ∈ tags, ∀ k ∈ liveMembers st (tagPfx ++ tag) now,
        lookupA (TaggedCache.Flush "cache:" tags st now).1 ("cache:" ++ k) =
          none := by
  induction tags with
  | nil =>
    intro st h tag ht
    exact absurd ht (by simp)
  | cons tagH rest ih =>
    intro st h tag ht k hk
    rw [flush_cons_eq "cache:" tagH rest st now (h tagH (by simp))]
    by_cases hKey : tagPfx ++ tag = tagPfx ++ tagH
    · have hk' : k ∈ liveMembers st (tagPfx ++ tagH) now := by
        rw [← hKey]
        exact hk
      exact flush_only_deletes "cache:" rest now _ _
        (flushStep_members_deleted "cache:" st tagH k now hk')
    · have htr : tag ∈ rest := by
        rcases List.mem_cons.mp ht with h1 | h1
        · exact absurd (by rw [h1]) hKey
        · exact h1
      have hrlive : rlive (flushStep "cache:" st tagH now) (tagPfx ++ tag)
          now = rlive st (tagPfx ++ tag) now := by
        unfold rlive
        rw [lookupA_flushStep_other_tag st tagH tag now hKey]
      have hmem2 : k ∈ liveMembers (flushStep "cache:" st tagH now)
          (tagPfx ++ tag) now := by
        unfold liveMembers
        rw [hrlive]
        exact hk
      exact ih _ (fun t htt =>
        notStr_flushStep "cache:" st tagH _ now (h t (by simp [htt])))
        tag htr k hmem2

theorem flush_noop {β : Type} (pfxC : String) (tags : List String)
    (now : Int) :
    ∀ st : RKV β,
      (∀ tag ∈ tags, lookupA st (tagPfx ++ tag) = none) →
      TaggedCache.Flush pfxC tags st now = (st, none) := by
  induction tags with
  | nil =>
    intro st h
    rfl
  | cons tagH rest ih =>
    intro st h
    have h0 : lookupA st (tagPfx ++ tagH) = none := h tagH (by simp)
    have hlive : rlive st (tagPfx ++ tagH) now = none := by
      unfold rlive
      rw [h0]
    have hns : notStr (rlive st (tagPfx ++ tagH) now) = true := by
      rw [hlive]
      rfl
    rw [flush_cons_eq pfxC tagH rest st now hns]
    have hstep : flushStep pfxC st tagH now = st := by
      unfold flushStep liveMembers
      rw [hlive]
      rw [if_neg (by simp)]
      exact eraseA_of_lookupA_none st _ h0
    rw [hstep]
    exact ih st (fun t ht => h t (by simp [ht]))

/-- Claim C8: `TaggedCache.Flush` deletes, for each of its tags, every cache
key currently in that tag's live index set and then the tag-index entry
itself, and it is idempotent: a second flush right after the first leaves the
state unchanged (it deletes nothing) and returns no error.  The hypothesis —
every tag-index key is absent or holds a set — is the invariant the package
maintains, since tag keys are only ever written by SADD. -/
theorem C8_tag_flush_deletes_and_idempotent {β : Type} (tags : List String)
    (st : RKV β) (now : Int)
    (h : ∀ tag ∈ tags, notStr (rlive st (tagPfx ++ tag) now) = true) :
    (TaggedCache.Flush "cache:" tags st now).2 = none ∧
    (∀ tag ∈ tags,
      lookupA (TaggedCache.Flush "cache:" tags st now).1 (tagPfx ++ tag) =
        none) ∧
    (∀ tag ∈ tags, ∀ k ∈ liveMembers st (tagPfx ++ tag) now,
      lookupA (TaggedCache.Flush "cache:" tags st now).1 ("cache:" ++ k) =
        none) ∧
    TaggedCache.Flush "cache:" tags
        (TaggedCache.Flush "cache:" tags st now).1 now =
      ((TaggedCache.Flush "cache:" tags st now).1, none) :=
  ⟨flush_err_none "cache:" tags now st h,
   flush_tagKeys_none "cache:" tags now st h,
   flush_members_deleted tags now st h,
   flush_noop "cache:" tags now _ (flush_tagKeys_none "cache:" tags now st h)⟩

/-- Claim C8 witness: a concrete cache with one value under tag `products` —
flushing deletes the value key and the tag key, returns no error, and a
second flush is a no-op without error. -/
theorem C8_tag_flush_witness :
    (TaggedCache.Flush "cache:" ["products"]
      [("cache:p1", RVal.str (7 : Nat) none),
       ("tag:products", RVal.rset ["p1"] none)] 0).2 = none ∧
    (∀ tag ∈ ["products"],
      lookupA (TaggedCache.Flush "cache:" ["products"]
        [("cache:p1", RVal.str (7 : Nat) none),
         ("tag:products", RVal.rset ["p1"] none)] 0).1 (tagPfx ++ tag) =
        none) ∧
    (∀ tag ∈ ["products"],
      ∀ k ∈ liveMembers
        [("cache:p1", RVal.str (7 : Nat) none),
         ("tag:products", RVal.rset ["p1"] none)] (tagPfx ++ tag) 0,
      lookupA (TaggedCache.Flush "cache:" ["products"]
        [("cache:p1", RVal.str (7 : Nat) none),
         ("tag:products", RVal.rset ["p1"] none)] 0).1 ("cache:" ++ k) =
        none) ∧
    TaggedCache.Flush "cache:" ["products"]
        (TaggedCache.Flush "cache:" ["products"]
          [("cache:p1", RVal.str (7 : Nat) none),
           ("tag:products", RVal.rset ["p1"] none)] 0).1 0 =
      ((TaggedCache.Flush "cache:" ["products"]
          [("cache:p1", RVal.str (7 : Nat) none),
           ("tag:products", RVal.rset ["p1"] none)] 0).1, none) :=
  C8_tag_flush_deletes_and_idempotent ["products"]
    [("cache:p1", RVal.str (7 : Nat) none),
     ("tag:products", RVal.rset ["p1"] none)] 0 (by decide)

end GoexpressRedis
